import Mathlib

/-!
Verification development for the yahoo_archive spider
(src/yahoo_news/yahoo_news/spiders/yahoo_archive.py).

Shallow embedding notes:

* Python `datetime` values are modelled by `AwareDT`: the wall-clock
  reading linearized to seconds (`wall`) together with the UTC offset in
  seconds (`off`).  The instant a value denotes is `wall - off`; Python
  compares aware datetimes by instant.  The reference timezone
  `ZoneInfo("Asia/Taipei")` is CST, a fixed +08:00 offset for all modern
  instants, so `astimezone(TZ)` is modelled as conversion to offset 28800.
  The bijection between calendar fields (y-m-d h:m:s) and the linearized
  wall reading is treated as part of the string presentation and is not
  re-verified here; sub-second precision is elided.

* Timestamp strings are modelled by `DateStr`: either a string
  `datetime.fromisoformat` rejects (`malformed`), an ISO string with a
  trailing `Z` (`isoZ`), or an ISO string with an explicit offset or no
  offset (`iso`).  An absent attribute and an empty string are both falsy
  in the Python `or` chains and are modelled together by `none` at the
  `Option DateStr` layer.

* DOM access (`response.css`, xpath lookups, `urljoin`), the browser
  driver and the network are external collaborators: the embedding takes
  their results (extracted strings, candidate links) as inputs.

* The mutable spider attributes set in `__init__` are split into the
  per-run constants `SpiderCfg` and the mutable `ScanState`; the
  `parse_archive` while-loop is modelled by `parse_archive_loop` over the
  successive rendered contents (one candidate list per scroll round).
-/

namespace YahooArchive

/-- the whitespace characters Python's `str.strip` removes. -/
def isSpaceChar (c : Char) : Bool :=
  c == ' ' || c == '\t' || c == '\n' || c == '\r' || c == '\x0b' || c == '\x0c'

/-- model of Python `str.strip()`: drop leading and trailing whitespace. -/
def pyStrip (s : String) : String :=
  ⟨((s.data.dropWhile isSpaceChar).reverse.dropWhile isSpaceChar).reverse⟩

/-- model of Python `str.startswith(p)`. -/
def pyStartsWith (s p : String) : Bool :=
  s.data.take p.data.length == p.data

/-- model of Python `str.endswith(p)`. -/
def pyEndsWith (s p : String) : Bool :=
  s.data.drop (s.data.length - p.data.length) == p.data && p.data.length ≤ s.data.length

/-- UTC offset, in seconds, of the reference timezone `Asia/Taipei` (+08:00). -/
def tzOffsetSecs : Int := 28800

/-- an aware datetime: linearized wall-clock seconds plus UTC offset seconds. -/
structure AwareDT where
  wall : Int
  off : Int
deriving DecidableEq, Repr

/-- the instant denoted by an aware datetime (Python compares aware datetimes by this). -/
def AwareDT.instant (d : AwareDT) : Int := d.wall - d.off

/-- model of `dt.astimezone(TZ)`: same instant, expressed at offset +08:00. -/
def AwareDT.astimezoneTZ (d : AwareDT) : AwareDT := ⟨d.instant + tzOffsetSecs, tzOffsetSecs⟩

/-- model of a timestamp string fed to `_parse_datetime`. -/
inductive DateStr where
  | malformed (s : String)
  | isoZ (wall : Int)
  | iso (wall : Int) (tz : Option Int)
deriving DecidableEq, Repr

/-- model of `dt.isoformat()`: the ISO string showing the wall reading and offset. -/
def AwareDT.isoformat (d : AwareDT) : DateStr := .iso d.wall (some d.off)

/-- model of `_parse_datetime` (yahoo_archive.py lines 436-449): `None`/empty
input gives nothing; a trailing `Z` is read as offset `+00:00`; a string with
no offset is stamped with the reference timezone; the result is always
converted into the reference timezone; malformed input gives nothing. -/
def parse_datetime : Option DateStr → Option AwareDT
  | none => none
  | some (.malformed _) => none
  | some (.isoZ w) => some (AwareDT.astimezoneTZ ⟨w, 0⟩)
  | some (.iso w (some o)) => some (AwareDT.astimezoneTZ ⟨w, o⟩)
  | some (.iso w none) => some (AwareDT.astimezoneTZ ⟨w, tzOffsetSecs⟩)

/-- per-run constants fixed in `__init__` (lines 47-67). -/
structure SpiderCfg where
  max_scroll : Option Nat
  max_urls : Option Nat
  old_streak_stop : Nat
  start_dt : AwareDT
  end_dt : AwareDT
deriving DecidableEq, Repr

/-- model of `__init__`: the window end is the given wall-clock reading in the
reference timezone and the start is one hour (3600 s) earlier (lines 63-67). -/
def spider_init (end_wall : Int) (max_scroll max_urls : Option Nat)
    (old_streak_stop : Nat) : SpiderCfg :=
  { max_scroll := max_scroll
    max_urls := max_urls
    old_streak_stop := old_streak_stop
    start_dt := ⟨end_wall - 3600, tzOffsetSecs⟩
    end_dt := ⟨end_wall, tzOffsetSecs⟩ }

/-- mutable run state initialised in `__init__` (lines 69-75). -/
structure ScanState where
  seen_urls : List String
  old_count_streak : Nat
  seen_recent_article : Bool
  stop_requested : Bool
  item_count : Nat
deriving DecidableEq, Repr

/-- the state as `__init__` leaves it. -/
def initState : ScanState :=
  { seen_urls := []
    old_count_streak := 0
    seen_recent_article := false
    stop_requested := false
    item_count := 0 }

/-- the three-way classification of the spec's TimeWindowFilter, named after
the spec's outcomes but with the boundaries the code actually tests
(`> end_dt` for too-new, `< start_dt` for too-old). -/
inductive Classify where
  | tooNew
  | inWindow
  | tooOld
deriving DecidableEq, Repr

/-- classification as the code branches on it (lines 162-172 and 227-239). -/
def classify_code (cfg : SpiderCfg) (d : AwareDT) : Classify :=
  if d.instant > cfg.end_dt.instant then .tooNew
  else if d.instant < cfg.start_dt.instant then .tooOld
  else .inWindow

/-- model of Python's `a or b or c` over the three date-source strings
(line 217-221): the first non-falsy (present, non-empty) one. -/
def firstTruthy (a b c : Option DateStr) : Option DateStr :=
  match a with
  | some x => some x
  | none =>
    match b with
    | some y => some y
    | none => c

/-- model of `self._parse_datetime(dt_str) or self._parse_datetime(archive_dt_str)`
(line 222). -/
def resolve_pub_dt (dt_str archive_dt_str : Option DateStr) : Option AwareDT :=
  match parse_datetime dt_str with
  | some d => some d
  | none => parse_datetime archive_dt_str

/-- model of `x.strip() if x else None` on an optional string field. -/
def stripOpt : Option String → Option String
  | none => none
  | some s => if s = "" then none else some (pyStrip s)

/-- one output record, as yielded at lines 245-251 (the sink serializes
`date` via `isoformat`). -/
structure ArticleRecord where
  link : String
  title : Option String
  author : Option String
  provider : Option String
  date : AwareDT
deriving DecidableEq, Repr

/-- model of `parse_article` (lines 197-251).  The page-derived strings
(title, the author/provider fallback chains, the three date sources) are
inputs; `archive_dt_str` is the inline-timestamp hint carried from the
listing.  Returns the updated state and the yielded record, if any. -/
def parse_article (cfg : SpiderCfg) (s : ScanState) (url : String)
    (title author provider : Option String)
    (time_attr pub_time_meta pubdate_meta archive_dt_str : Option DateStr) :
    ScanState × Option ArticleRecord :=
  let dt_str := firstTruthy time_attr pub_time_meta pubdate_meta
  match resolve_pub_dt dt_str archive_dt_str with
  | none => (s, none)
  | some pub_dt =>
    if pub_dt.instant > cfg.end_dt.instant then (s, none)
    else if pub_dt.instant < cfg.start_dt.instant then
      if s.seen_recent_article then
        let s1 := { s with old_count_streak := s.old_count_streak + 1 }
        if s1.old_count_streak ≥ cfg.old_streak_stop then
          ({ s1 with stop_requested := true }, none)
        else (s1, none)
      else (s, none)
    else
      let s1 := { s with seen_recent_article := true, old_count_streak := 0 }
      if cfg.start_dt.instant ≤ pub_dt.instant ∧ pub_dt.instant ≤ cfg.end_dt.instant then
        ({ s1 with item_count := s1.item_count + 1 },
         some { link := url
                title := stripOpt title
                author := stripOpt author
                provider := stripOpt provider
                date := pub_dt })
      else (s1, none)

/-- one candidate anchor of a rendered listing page: the (already joined)
href, if any, and the result of the three-tier inline-timestamp search
(lines 143-159). -/
structure Cand where
  href : Option String
  dtStr : Option DateStr
deriving DecidableEq, Repr

/-- the URL-shape filter of lines 147-149. -/
def urlOk (u : String) : Bool :=
  pyStartsWith u "https://tw.news.yahoo.com/" && pyEndsWith u ".html"

/-- the `max_urls` test of lines 183 and 188. -/
def maxUrlsReached (cfg : SpiderCfg) (s : ScanState) : Bool :=
  match cfg.max_urls with
  | some m => s.seen_urls.length ≥ m
  | none => false

/-- the `max_scroll` test of line 131 (`scroll_round` before increment). -/
def maxScrollReached (cfg : SpiderCfg) (round : Nat) : Bool :=
  match cfg.max_scroll with
  | some m => round ≥ m
  | none => false

/-- model of the per-candidate for-loop of `parse_archive` (lines 142-184):
returns the state after the loop and the URLs dispatched for article
fetches, in document order.  The loop body skips absent hrefs, wrong-shaped
URLs and already-seen URLs; pre-filters by the inline timestamp (too-new
skipped, too-old feeding the streak counter with a possible early break,
in-window resetting it); then records the URL as seen, dispatches it, and
breaks once `max_urls` is reached. -/
def parse_archive_cands (cfg : SpiderCfg) : ScanState → List Cand → ScanState × List String
  | s, [] => (s, [])
  | s, c :: rest =>
    match c.href with
    | none => parse_archive_cands cfg s rest
    | some url =>
      if urlOk url = false then parse_archive_cands cfg s rest
      else if url ∈ s.seen_urls then parse_archive_cands cfg s rest
      else
        match parse_datetime c.dtStr with
        | some d =>
          if d.instant > cfg.end_dt.instant then parse_archive_cands cfg s rest
          else if d.instant < cfg.start_dt.instant then
            if s.seen_recent_article then
              let s1 := { s with old_count_streak := s.old_count_streak + 1 }
              if s1.old_count_streak ≥ cfg.old_streak_stop then
                ({ s1 with stop_requested := true }, [])
              else parse_archive_cands cfg s1 rest
            else parse_archive_cands cfg s rest
          else
            if maxUrlsReached cfg { s with seen_recent_article := true, old_count_streak := 0,
                                           seen_urls := url :: s.seen_urls } then
              ({ s with seen_recent_article := true, old_count_streak := 0,
                        seen_urls := url :: s.seen_urls }, [url])
            else
              ((parse_archive_cands cfg
                  { s with seen_recent_article := true, old_count_streak := 0,
                           seen_urls := url :: s.seen_urls } rest).1,
               url :: (parse_archive_cands cfg
                  { s with seen_recent_article := true, old_count_streak := 0,
                           seen_urls := url :: s.seen_urls } rest).2)
        | none =>
          if maxUrlsReached cfg { s with seen_urls := url :: s.seen_urls } then
            ({ s with seen_urls := url :: s.seen_urls }, [url])
          else
            ((parse_archive_cands cfg { s with seen_urls := url :: s.seen_urls } rest).1,
             url :: (parse_archive_cands cfg { s with seen_urls := url :: s.seen_urls } rest).2)

/-- model of the `while True` scroll loop of `parse_archive` (lines 121-193):
each scroll round renders one candidate list; the loop stops on
`stop_requested`, on `max_scroll`, or once `max_urls` is reached after a
round.  Returns the final state and all dispatched URLs. -/
def parse_archive_loop (cfg : SpiderCfg) : List (List Cand) → Nat → ScanState → ScanState × List String
  | [], _, s => (s, [])
  | page :: rest, round, s =>
    if s.stop_requested then (s, [])
    else if maxScrollReached cfg round then (s, [])
    else
      if maxUrlsReached cfg (parse_archive_cands cfg s page).1 then
        parse_archive_cands cfg s page
      else
        ((parse_archive_loop cfg rest (round + 1) (parse_archive_cands cfg s page).1).1,
         (parse_archive_cands cfg s page).2 ++
           (parse_archive_loop cfg rest (round + 1) (parse_archive_cands cfg s page).1).2)

/- transient JSON value visited during structured-data extraction; arrays and
objects are given as their own inductives so the extractors are structurally
recursive. -/
mutual
inductive JsonVal where
  | str (s : String)
  | num (n : Int)
  | boolVal (b : Bool)
  | nullVal
  | arr (xs : JsonArr)
  | obj (fs : JsonObj)
inductive JsonArr where
  | nil
  | cons (hd : JsonVal) (tl : JsonArr)
inductive JsonObj where
  | nil
  | cons (key : String) (val : JsonVal) (tl : JsonObj)
end

/-- model of `dict.get(key)` (keys of a parsed JSON object are unique). -/
def JsonObj.get : JsonObj → String → Option JsonVal
  | .nil, _ => none
  | .cons k v tl, key => if k = key then some v else tl.get key

/-- the elements of a JSON array as a plain list. -/
def JsonArr.toList : JsonArr → List JsonVal
  | .nil => []
  | .cons x tl => x :: tl.toList

mutual
/-- model of `_extract_person_name` (lines 403-419): a string is stripped
(empty result dropped); a mapping yields its stripped `name` field when that
is a string with non-blank content; a list yields the `", "`-join of the
resolved member names when any member resolves; anything else yields
nothing. -/
def extract_person_name : JsonVal → Option String
  | .str s => if pyStrip s = "" then none else some (pyStrip s)
  | .obj fs =>
    match fs.get "name" with
    | some (.str n) => if pyStrip n = "" then none else some (pyStrip n)
    | _ => none
  | .arr xs =>
    match person_names xs with
    | [] => none
    | n :: ns => some (String.intercalate ", " (n :: ns))
  | _ => none
/-- the resolved names of a list's members, in order (the `names` list of
lines 412-417). -/
def person_names : JsonArr → List String
  | .nil => []
  | .cons x tl =>
    match extract_person_name x with
    | some n => n :: person_names tl
    | none => person_names tl
end

mutual
/-- model of `_extract_org_name` (lines 421-434): as `_extract_person_name`
except that a list yields the first resolved member name. -/
def extract_org_name : JsonVal → Option String
  | .str s => if pyStrip s = "" then none else some (pyStrip s)
  | .obj fs =>
    match fs.get "name" with
    | some (.str n) => if pyStrip n = "" then none else some (pyStrip n)
    | _ => none
  | .arr xs => first_org_name xs
  | _ => none
/-- the first member of a list that resolves to an organization name
(lines 429-433). -/
def first_org_name : JsonArr → Option String
  | .nil => none
  | .cons x tl =>
    match extract_org_name x with
    | some n => some n
    | none => first_org_name tl
end

/-- one row of the output CSV as `csv.DictReader` hands it back; `none` for
`date` models a missing or empty date cell (falsy in `get("date") or ""`). -/
structure CsvRow where
  link : String
  title : String
  author : String
  provider : String
  date : Option DateStr
deriving DecidableEq, Repr

/-- model of `datetime.min.replace(tzinfo=TZ)`: the wall reading of
0001-01-01T00:00:00 linearized against the 1970 epoch, at the reference
offset. -/
def datetime_min_tz : AwareDT := ⟨-62135596800, tzOffsetSecs⟩

/-- the date component of the sort key of `_sort_output_csv_by_date`
(line 296): the parsed date cell, or `datetime.min` in the reference
timezone when the cell is absent, empty or unparseable. -/
def row_sort_key (r : CsvRow) : Int :=
  match parse_datetime r.date with
  | some d => d.instant
  | none => datetime_min_tz.instant

/-- the lexicographic comparison Python applies to the sort key
`(parsed date, original row index)` (lines 293-299). -/
def pair_key_le (a b : Nat × CsvRow) : Bool :=
  if row_sort_key a.2 < row_sort_key b.2 then true
  else if row_sort_key a.2 = row_sort_key b.2 then decide (a.1 ≤ b.1)
  else false

/-- model of the in-memory reorder performed by `_sort_output_csv_by_date`
(lines 293-300): enumerate the rows, sort by `(parsed date, original
index)`, and keep the rows. -/
def sort_output_csv_by_date (rows : List CsvRow) : List CsvRow :=
  ((rows.enum).mergeSort pair_key_le).map (fun p => p.2)

/-- the date-resolution rule as the spec words it: the record's date is the
first source in the order (page-visible timestamp attribute,
`article:published_time` meta tag, `pubdate` meta tag, inline timestamp
hint) that parses successfully.  Written for comparison with the code's
`resolve_pub_dt` over `firstTruthy`. -/
def resolve_date_spec (ta pm pd ad : Option DateStr) : Option AwareDT :=
  match parse_datetime ta with
  | some d => some d
  | none =>
    match parse_datetime pm with
    | some d => some d
    | none =>
      match parse_datetime pd with
      | some d => some d
      | none => parse_datetime ad

/-- a string trimmed of surrounding whitespace and kept only when non-blank:
the normal form of the amended name-resolution rule. -/
def trimmed_nonblank (s : String) : Option String :=
  if pyStrip s = "" then none else some (pyStrip s)

/-- a scroll round surfacing eight qualifying candidates: distinct
well-shaped URLs, each with an in-window inline timestamp (for the
`max_urls = 5` scenario). -/
def eight_cands : List Cand :=
  [⟨some "https://tw.news.yahoo.com/a1.html", some (.iso 1800 (some tzOffsetSecs))⟩,
   ⟨some "https://tw.news.yahoo.com/a2.html", some (.iso 1800 (some tzOffsetSecs))⟩,
   ⟨some "https://tw.news.yahoo.com/a3.html", some (.iso 1800 (some tzOffsetSecs))⟩,
   ⟨some "https://tw.news.yahoo.com/a4.html", some (.iso 1800 (some tzOffsetSecs))⟩,
   ⟨some "https://tw.news.yahoo.com/a5.html", some (.iso 1800 (some tzOffsetSecs))⟩,
   ⟨some "https://tw.news.yahoo.com/a6.html", some (.iso 1800 (some tzOffsetSecs))⟩,
   ⟨some "https://tw.news.yahoo.com/a7.html", some (.iso 1800 (some tzOffsetSecs))⟩,
   ⟨some "https://tw.news.yahoo.com/a8.html", some (.iso 1800 (some tzOffsetSecs))⟩]

/-- monotonicity relation between run states: the `stop_requested` and
`seen_recent_article` flags never fall back to false and `seen_urls` never
shrinks. -/
def state_mono (s s' : ScanState) : Prop :=
  (s.stop_requested = true → s'.stop_requested = true) ∧
  (s.seen_recent_article = true → s'.seen_recent_article = true) ∧
  (∀ u, u ∈ s.seen_urls → u ∈ s'.seen_urls)

/-- the streak invariant every reachable run state satisfies: while no stop
has been requested, the old-item streak is strictly below the threshold. -/
def streak_inv (cfg : SpiderCfg) (s : ScanState) : Prop :=
  s.stop_requested = false → s.old_count_streak < cfg.old_streak_stop

/-! ## Theorems -/

set_option maxRecDepth 10000

theorem state_mono_rfl (s : ScanState) : state_mono s s :=
  ⟨fun h => h, fun h => h, fun _ h => h⟩

theorem state_mono_trans {a b c : ScanState} (h1 : state_mono a b) (h2 : state_mono b c) :
    state_mono a c :=
  ⟨fun h => h2.1 (h1.1 h), fun h => h2.2.1 (h1.2.1 h), fun u h => h2.2.2 u (h1.2.2 u h)⟩

theorem classify_code_spec (cfg : SpiderCfg) (d : AwareDT) :
    (classify_code cfg d = .tooNew ↔ d.instant > cfg.end_dt.instant) ∧
    (classify_code cfg d = .tooOld ↔
      d.instant ≤ cfg.end_dt.instant ∧ d.instant < cfg.start_dt.instant) ∧
    (classify_code cfg d = .inWindow ↔
      cfg.start_dt.instant ≤ d.instant ∧ d.instant ≤ cfg.end_dt.instant) := by
  unfold classify_code
  split
  · rename_i h1
    refine ⟨by simp [h1], by simp; omega, by simp; omega⟩
  · rename_i h1
    split
    · rename_i h2
      refine ⟨by simp; omega, by simp; omega, by simp; omega⟩
    · rename_i h2
      refine ⟨by simp; omega, by simp; omega, by simp; omega⟩

theorem cands_seen_eq (cfg : SpiderCfg) : ∀ (cs : List Cand) (s : ScanState),
    (parse_archive_cands cfg s cs).1.seen_urls =
      (parse_archive_cands cfg s cs).2.reverse ++ s.seen_urls := by
  intro cs
  induction cs with
  | nil => intro s; simp [parse_archive_cands]
  | cons c rest ih =>
    intro s
    simp only [parse_archive_cands]
    split
    · exact ih s
    · split
      · exact ih s
      · split
        · exact ih s
        · split
          · split
            · exact ih s
            · split
              · split
                · split
                  · simp
                  · exact ih _
                · exact ih s
              · split
                · simp
                · rw [ih _]
                  simp
          · split
            · simp
            · rw [ih _]
              simp

theorem cands_dispatch_not_seen (cfg : SpiderCfg) : ∀ (cs : List Cand) (s : ScanState) (u : String),
    u ∈ (parse_archive_cands cfg s cs).2 → u ∉ s.seen_urls := by
  intro cs
  induction cs with
  | nil => intro s u hu; simp [parse_archive_cands] at hu
  | cons c rest ih =>
    intro s u hu
    simp only [parse_archive_cands] at hu
    split at hu
    · exact ih s u hu
    · split at hu
      · exact ih s u hu
      · split at hu
        · exact ih s u hu
        · rename_i hmem
          split at hu
          · split at hu
            · exact ih s u hu
            · split at hu
              · split at hu
                · split at hu
                  · simp at hu
                  · exact ih { s with old_count_streak := s.old_count_streak + 1 } u hu
                · exact ih s u hu
              · split at hu
                · simp at hu
                  subst hu
                  exact hmem
                · rcases List.mem_cons.mp hu with h | h
                  · subst h
                    exact hmem
                  · intro hin
                    exact ih _ u h (List.mem_cons_of_mem _ hin)
          · split at hu
            · simp at hu
              subst hu
              exact hmem
            · rcases List.mem_cons.mp hu with h | h
              · subst h
                exact hmem
              · intro hin
                exact ih _ u h (List.mem_cons_of_mem _ hin)

theorem cands_dispatch_nodup (cfg : SpiderCfg) : ∀ (cs : List Cand) (s : ScanState),
    (parse_archive_cands cfg s cs).2.Nodup := by
  intro cs
  induction cs with
  | nil => intro s; simp [parse_archive_cands]
  | cons c rest ih =>
    intro s
    simp only [parse_archive_cands]
    split
    · exact ih s
    · split
      · exact ih s
      · split
        · exact ih s
        · split
          · split
            · exact ih s
            · split
              · split
                · split
                  · simp
                  · exact ih _
                · exact ih s
              · split
                · simp
                · refine List.nodup_cons.mpr ⟨fun h => ?_, ih _⟩
                  exact cands_dispatch_not_seen cfg rest _ _ h (by simp)
          · split
            · simp
            · refine List.nodup_cons.mpr ⟨fun h => ?_, ih _⟩
              exact cands_dispatch_not_seen cfg rest _ _ h (by simp)

theorem article_mono (cfg : SpiderCfg) (s : ScanState) (url : String)
    (title author provider : Option String) (ta pm pd ad : Option DateStr) :
    state_mono s (parse_article cfg s url title author provider ta pm pd ad).1 := by
  simp only [parse_article]
  split
  · exact state_mono_rfl s
  · split
    · exact state_mono_rfl s
    · split
      · split
        · split
          · exact ⟨fun _ => rfl, fun h => h, fun _ h => h⟩
          · exact ⟨fun h => h, fun h => h, fun _ h => h⟩
        · exact state_mono_rfl s
      · split
        · exact ⟨fun h => h, fun _ => rfl, fun _ h => h⟩
        · exact ⟨fun h => h, fun _ => rfl, fun _ h => h⟩

theorem cands_mono (cfg : SpiderCfg) : ∀ (cs : List Cand) (s : ScanState),
    state_mono s (parse_archive_cands cfg s cs).1 := by
  intro cs
  induction cs with
  | nil => intro s; exact state_mono_rfl s
  | cons c rest ih =>
    intro s
    simp only [parse_archive_cands]
    split
    · exact ih s
    · rename_i url hurl
      split
      · exact ih s
      · split
        · exact ih s
        · split
          · split
            · exact ih s
            · split
              · split
                · split
                  · exact ⟨fun _ => rfl, fun h => h, fun _ h => h⟩
                  · exact state_mono_trans ⟨fun h => h, fun h => h, fun _ h => h⟩
                      (ih { s with old_count_streak := s.old_count_streak + 1 })
                · exact ih s
              · split
                · exact ⟨fun h => h, fun _ => rfl, fun _ h => List.mem_cons_of_mem _ h⟩
                · exact state_mono_trans
                    (b := { s with seen_recent_article := true, old_count_streak := 0,
                                   seen_urls := url :: s.seen_urls })
                    ⟨fun h => h, fun _ => rfl, fun _ h => List.mem_cons_of_mem _ h⟩
                    (ih _)
          · split
            · exact ⟨fun h => h, fun h => h, fun _ h => List.mem_cons_of_mem _ h⟩
            · exact state_mono_trans
                (b := { s with seen_urls := url :: s.seen_urls })
                ⟨fun h => h, fun h => h, fun _ h => List.mem_cons_of_mem _ h⟩
                (ih _)

theorem loop_mono (cfg : SpiderCfg) : ∀ (pages : List (List Cand)) (round : Nat) (s : ScanState),
    state_mono s (parse_archive_loop cfg pages round s).1 := by
  intro pages
  induction pages with
  | nil => intro round s; exact state_mono_rfl s
  | cons page rest ih =>
    intro round s
    simp only [parse_archive_loop]
    split
    · exact state_mono_rfl s
    · split
      · exact state_mono_rfl s
      · split
        · exact cands_mono cfg page s
        · exact state_mono_trans (cands_mono cfg page s) (ih _ _)

theorem article_streak_inv (cfg : SpiderCfg) (s : ScanState) (url : String)
    (title author provider : Option String) (ta pm pd ad : Option DateStr)
    (hinv : streak_inv cfg s) :
    streak_inv cfg (parse_article cfg s url title author provider ta pm pd ad).1 := by
  simp only [parse_article]
  split
  · exact hinv
  · split
    · exact hinv
    · split
      · split
        · split
          · intro h
            dsimp only at h
            simp at h
          · rename_i hlt
            intro h
            dsimp only
            omega
        · exact hinv
      · split
        · intro h
          dsimp only at h
          dsimp only
          have := hinv h
          omega
        · intro h
          dsimp only at h
          dsimp only
          have := hinv h
          omega

theorem cands_streak_inv (cfg : SpiderCfg) : ∀ (cs : List Cand) (s : ScanState),
    streak_inv cfg s → streak_inv cfg (parse_archive_cands cfg s cs).1 := by
  intro cs
  induction cs with
  | nil => intro s h; exact h
  | cons c rest ih =>
    intro s hinv
    simp only [parse_archive_cands]
    split
    · exact ih s hinv
    · split
      · exact ih s hinv
      · split
        · exact ih s hinv
        · split
          · split
            · exact ih s hinv
            · split
              · split
                · split
                  · intro h
                    dsimp only at h
                    simp at h
                  · rename_i hlt
                    exact ih _ (fun _ => by dsimp only; omega)
                · exact ih s hinv
              · split
                · intro h
                  dsimp only at h
                  dsimp only
                  have := hinv h
                  omega
                · exact ih _ (fun h => by
                    dsimp only at h
                    dsimp only
                    have := hinv h
                    omega)
          · split
            · exact hinv
            · exact ih _ hinv

theorem loop_streak_inv (cfg : SpiderCfg) :
    ∀ (pages : List (List Cand)) (round : Nat) (s : ScanState),
    streak_inv cfg s → streak_inv cfg (parse_archive_loop cfg pages round s).1 := by
  intro pages
  induction pages with
  | nil => intro round s h; exact h
  | cons page rest ih =>
    intro round s hinv
    simp only [parse_archive_loop]
    split
    · exact hinv
    · split
      · exact hinv
      · split
        · exact cands_streak_inv cfg page s hinv
        · exact ih _ _ (cands_streak_inv cfg page s hinv)

theorem article_reset (cfg : SpiderCfg) (s : ScanState) (url : String)
    (title author provider : Option String) (ta pm pd ad : Option DateStr) (d : AwareDT)
    (hres : resolve_pub_dt (firstTruthy ta pm pd) ad = some d)
    (hcls : classify_code cfg d = .inWindow) :
    (parse_article cfg s url title author provider ta pm pd ad).1.old_count_streak = 0 := by
  have hc := (classify_code_spec cfg d).2.2.mp hcls
  simp only [parse_article, hres]
  rw [if_neg (by omega : ¬ d.instant > cfg.end_dt.instant),
    if_neg (by omega : ¬ d.instant < cfg.start_dt.instant)]
  split <;> rfl

theorem cands_single_reset (cfg : SpiderCfg) (s : ScanState) (c : Cand) (url : String)
    (d : AwareDT) (hhref : c.href = some url) (hok : urlOk url = true)
    (hmem : url ∉ s.seen_urls) (hdt : parse_datetime c.dtStr = some d)
    (hcls : classify_code cfg d = .inWindow) :
    (parse_archive_cands cfg s [c]).1.old_count_streak = 0 := by
  have hc := (classify_code_spec cfg d).2.2.mp hcls
  simp only [parse_archive_cands, hhref, hdt]
  rw [if_neg (by simp [hok] : ¬ urlOk url = false), if_neg hmem,
    if_neg (by omega : ¬ d.instant > cfg.end_dt.instant),
    if_neg (by omega : ¬ d.instant < cfg.start_dt.instant)]
  split <;> rfl

theorem article_stop_exact (cfg : SpiderCfg) (s : ScanState) (url : String)
    (title author provider : Option String) (ta pm pd ad : Option DateStr)
    (hinv : streak_inv cfg s) (hstop : s.stop_requested = false) :
    ((parse_article cfg s url title author provider ta pm pd ad).1.stop_requested = true ↔
      (parse_article cfg s url title author provider ta pm pd ad).1.old_count_streak =
        cfg.old_streak_stop) := by
  have hlt := hinv hstop
  simp only [parse_article]
  split
  · simp [hstop]; omega
  · split
    · simp [hstop]; omega
    · split
      · split
        · split
          · rename_i hge
            dsimp only
            simp
            omega
          · rename_i hgt
            dsimp only
            simp [hstop]
            omega
        · simp [hstop]; omega
      · split
        · dsimp only
          simp [hstop]
          omega
        · dsimp only
          simp [hstop]
          omega

theorem cands_stop_exact (cfg : SpiderCfg) : ∀ (cs : List Cand) (s : ScanState),
    streak_inv cfg s → s.stop_requested = false →
    ((parse_archive_cands cfg s cs).1.stop_requested = true ↔
      (parse_archive_cands cfg s cs).1.old_count_streak = cfg.old_streak_stop) := by
  intro cs
  induction cs with
  | nil =>
    intro s hinv hstop
    have := hinv hstop
    simp [parse_archive_cands, hstop]
    omega
  | cons c rest ih =>
    intro s hinv hstop
    have hlt := hinv hstop
    simp only [parse_archive_cands]
    split
    · exact ih s hinv hstop
    · split
      · exact ih s hinv hstop
      · split
        · exact ih s hinv hstop
        · split
          · split
            · exact ih s hinv hstop
            · split
              · split
                · split
                  · rename_i hge
                    dsimp only
                    simp
                    omega
                  · rename_i hgt
                    exact ih _ (fun _ => by dsimp only; omega) hstop
                · exact ih s hinv hstop
              · split
                · dsimp only
                  simp [hstop]
                  omega
                · exact ih _ (fun _ => by dsimp only; omega) hstop
          · split
            · dsimp only
              simp [hstop]
              omega
            · exact ih _ (fun h => by
                dsimp only at h
                dsimp only
                exact hinv h) hstop

theorem loop_seen_eq (cfg : SpiderCfg) : ∀ (pages : List (List Cand)) (round : Nat) (s : ScanState),
    (parse_archive_loop cfg pages round s).1.seen_urls =
      (parse_archive_loop cfg pages round s).2.reverse ++ s.seen_urls := by
  intro pages
  induction pages with
  | nil => intro round s; simp [parse_archive_loop]
  | cons page rest ih =>
    intro round s
    simp only [parse_archive_loop]
    split
    · simp
    · split
      · simp
      · split
        · exact cands_seen_eq cfg page s
        · rw [ih, cands_seen_eq]
          simp

theorem loop_not_seen (cfg : SpiderCfg) :
    ∀ (pages : List (List Cand)) (round : Nat) (s : ScanState) (u : String),
    u ∈ (parse_archive_loop cfg pages round s).2 → u ∉ s.seen_urls := by
  intro pages
  induction pages with
  | nil => intro round s u hu; simp [parse_archive_loop] at hu
  | cons page rest ih =>
    intro round s u hu
    simp only [parse_archive_loop] at hu
    split at hu
    · simp at hu
    · split at hu
      · simp at hu
      · split at hu
        · exact cands_dispatch_not_seen cfg page s u hu
        · rcases List.mem_append.mp hu with h | h
          · exact cands_dispatch_not_seen cfg page s u h
          · intro hin
            exact ih _ _ u h ((cands_mono cfg page s).2.2 u hin)

theorem loop_nodup (cfg : SpiderCfg) :
    ∀ (pages : List (List Cand)) (round : Nat) (s : ScanState),
    (parse_archive_loop cfg pages round s).2.Nodup := by
  intro pages
  induction pages with
  | nil => intro round s; simp [parse_archive_loop]
  | cons page rest ih =>
    intro round s
    simp only [parse_archive_loop]
    split
    · simp
    · split
      · simp
      · split
        · exact cands_dispatch_nodup cfg page s
        · refine List.Nodup.append (cands_dispatch_nodup cfg page s) (ih _ _) ?_
          intro u hu1 hu2
          refine loop_not_seen cfg rest _ _ u hu2 ?_
          rw [cands_seen_eq]
          exact List.mem_append_left _ (List.mem_reverse.mpr hu1)

/-- C2: within a single run every URL is dispatched at most once.  Across
the whole scroll loop the dispatched URLs are pairwise distinct, none of
them was in `seen_urls` beforehand, and the final `seen_urls` is exactly
the dispatched URLs (newest first) on top of the initial ones — so every
URL is added to `seen_urls` when its fetch is dispatched.  Moreover a
candidate whose URL is already in `seen_urls` is skipped outright. -/
theorem dispatch_at_most_once :
    (∀ (cfg : SpiderCfg) (pages : List (List Cand)) (round : Nat) (s : ScanState),
      (parse_archive_loop cfg pages round s).2.Nodup ∧
      (∀ u, u ∈ (parse_archive_loop cfg pages round s).2 → u ∉ s.seen_urls) ∧
      (parse_archive_loop cfg pages round s).1.seen_urls =
        (parse_archive_loop cfg pages round s).2.reverse ++ s.seen_urls) ∧
    (∀ (cfg : SpiderCfg) (s : ScanState) (c : Cand) (rest : List Cand) (url : String),
      c.href = some url → url ∈ s.seen_urls →
      parse_archive_cands cfg s (c :: rest) = parse_archive_cands cfg s rest) := by
  constructor
  · intro cfg pages round s
    exact ⟨loop_nodup cfg pages round s, loop_not_seen cfg pages round s,
      loop_seen_eq cfg pages round s⟩
  · intro cfg s c rest url hhref hmem
    simp only [parse_archive_cands, hhref, hmem, if_true]
    split <;> rfl

/-- C2 witness: a candidate whose URL is already seen is skipped, on a
concrete state. -/
theorem dispatch_at_most_once_witness :
    parse_archive_cands (spider_init 3600 none none 20)
        { initState with seen_urls := ["https://tw.news.yahoo.com/a1.html"] }
        [⟨some "https://tw.news.yahoo.com/a1.html", none⟩] =
      parse_archive_cands (spider_init 3600 none none 20)
        { initState with seen_urls := ["https://tw.news.yahoo.com/a1.html"] } [] :=
  dispatch_at_most_once.2 (spider_init 3600 none none 20)
    { initState with seen_urls := ["https://tw.news.yahoo.com/a1.html"] }
    ⟨some "https://tw.news.yahoo.com/a1.html", none⟩ []
    "https://tw.news.yahoo.com/a1.html" rfl (by simp)

/-- C3: the old-item streak resets to 0 on every in-window classification,
at both the listing-level check (shown on a one-candidate round) and the
article-level re-check; and from any reachable state (one satisfying the
streak invariant, which holds initially and is preserved by both
operations) with no stop requested yet, `stop_requested` becomes true
exactly when the streak counter reaches `old_streak_stop`. -/
theorem streak_reset_and_stop_exact :
    (∀ cfg : SpiderCfg, 0 < cfg.old_streak_stop → streak_inv cfg initState) ∧
    (∀ (cfg : SpiderCfg) (s : ScanState) (url : String)
       (title author provider : Option String) (ta pm pd ad : Option DateStr),
      streak_inv cfg s →
      streak_inv cfg (parse_article cfg s url title author provider ta pm pd ad).1) ∧
    (∀ (cfg : SpiderCfg) (s : ScanState) (cs : List Cand),
      streak_inv cfg s → streak_inv cfg (parse_archive_cands cfg s cs).1) ∧
    (∀ (cfg : SpiderCfg) (s : ScanState) (url : String)
       (title author provider : Option String) (ta pm pd ad : Option DateStr) (d : AwareDT),
      resolve_pub_dt (firstTruthy ta pm pd) ad = some d →
      classify_code cfg d = .inWindow →
      (parse_article cfg s url title author provider ta pm pd ad).1.old_count_streak = 0) ∧
    (∀ (cfg : SpiderCfg) (s : ScanState) (c : Cand) (url : String) (d : AwareDT),
      c.href = some url → urlOk url = true → url ∉ s.seen_urls →
      parse_datetime c.dtStr = some d → classify_code cfg d = .inWindow →
      (parse_archive_cands cfg s [c]).1.old_count_streak = 0) ∧
    (∀ (cfg : SpiderCfg) (s : ScanState) (url : String)
       (title author provider : Option String) (ta pm pd ad : Option DateStr),
      streak_inv cfg s → s.stop_requested = false →
      ((parse_article cfg s url title author provider ta pm pd ad).1.stop_requested = true ↔
        (parse_article cfg s url title author provider ta pm pd ad).1.old_count_streak =
          cfg.old_streak_stop)) ∧
    (∀ (cfg : SpiderCfg) (s : ScanState) (cs : List Cand),
      streak_inv cfg s → s.stop_requested = false →
      ((parse_archive_cands cfg s cs).1.stop_requested = true ↔
        (parse_archive_cands cfg s cs).1.old_count_streak = cfg.old_streak_stop)) :=
  ⟨fun _ h _ => h,
   fun cfg s url title author provider ta pm pd ad =>
     article_streak_inv cfg s url title author provider ta pm pd ad,
   fun cfg s cs => cands_streak_inv cfg cs s,
   fun cfg s url title author provider ta pm pd ad d =>
     article_reset cfg s url title author provider ta pm pd ad d,
   fun cfg s c url d => cands_single_reset cfg s c url d,
   fun cfg s url title author provider ta pm pd ad =>
     article_stop_exact cfg s url title author provider ta pm pd ad,
   fun cfg s cs => cands_stop_exact cfg cs s⟩

/-- C3 witness: with threshold 2, a state at streak 1 that re-checks a
too-old article reaches streak 2 and requests the stop. -/
theorem streak_reset_and_stop_exact_witness :
    (parse_article (spider_init 7200 none none 2)
        { initState with old_count_streak := 1, seen_recent_article := true } "u"
        none none none (some (.iso 100 (some tzOffsetSecs))) none none none).1.stop_requested =
        true ↔
      (parse_article (spider_init 7200 none none 2)
        { initState with old_count_streak := 1, seen_recent_article := true } "u"
        none none none (some (.iso 100 (some tzOffsetSecs))) none none none).1.old_count_streak =
        2 :=
  streak_reset_and_stop_exact.2.2.2.2.2.1 (spider_init 7200 none none 2)
    { initState with old_count_streak := 1, seen_recent_article := true } "u"
    none none none (some (.iso 100 (some tzOffsetSecs))) none none none
    (fun _ => by decide) rfl

/-- C4: a timestamp classified too-old while `seen_recent_article` is still
false is skipped without incrementing the streak, at the article-level
re-check and at the listing-level check; and before any in-window item has
been seen the streak never grows under `parse_article`. -/
theorem too_old_before_in_window_skipped :
    (∀ (cfg : SpiderCfg) (s : ScanState) (url : String)
       (title author provider : Option String) (ta pm pd ad : Option DateStr) (d : AwareDT),
      resolve_pub_dt (firstTruthy ta pm pd) ad = some d →
      classify_code cfg d = .tooOld →
      s.seen_recent_article = false →
      parse_article cfg s url title author provider ta pm pd ad = (s, none)) ∧
    (∀ (cfg : SpiderCfg) (s : ScanState) (c : Cand) (rest : List Cand) (url : String)
       (d : AwareDT),
      c.href = some url →
      urlOk url = true →
      url ∉ s.seen_urls →
      parse_datetime c.dtStr = some d →
      classify_code cfg d = .tooOld →
      s.seen_recent_article = false →
      parse_archive_cands cfg s (c :: rest) = parse_archive_cands cfg s rest) ∧
    (∀ (cfg : SpiderCfg) (s : ScanState) (url : String)
       (title author provider : Option String) (ta pm pd ad : Option DateStr),
      s.seen_recent_article = false →
      (parse_article cfg s url title author provider ta pm pd ad).1.old_count_streak ≤
        s.old_count_streak) := by
  refine ⟨?_, ?_, ?_⟩
  · intro cfg s url title author provider ta pm pd ad d hres hcls hseen
    have hc := (classify_code_spec cfg d).2.1.mp hcls
    simp only [parse_article, hres]
    rw [if_neg (by omega : ¬ d.instant > cfg.end_dt.instant), if_pos hc.2, hseen]
    simp
  · intro cfg s c rest url d hhref hurlok hmem hdt hcls hseen
    have hc := (classify_code_spec cfg d).2.1.mp hcls
    simp only [parse_archive_cands, hhref, hdt]
    rw [if_neg (by simp [hurlok] : ¬ urlOk url = false), if_neg hmem,
      if_neg (by omega : ¬ d.instant > cfg.end_dt.instant), if_pos hc.2, hseen]
    simp
  · intro cfg s url title author provider ta pm pd ad hseen
    simp only [parse_article]
    split
    · simp
    · split
      · simp
      · split
        · rw [hseen]
          simp
        · split <;> simp

/-- C4 witness: a too-old article re-check before any in-window sighting
leaves the concrete state untouched and emits nothing. -/
theorem too_old_before_in_window_skipped_witness :
    parse_article (spider_init 7200 none none 20) initState "u" none none none
      (some (.iso 100 (some tzOffsetSecs))) none none none = (initState, none) :=
  too_old_before_in_window_skipped.1 (spider_init 7200 none none 20) initState "u"
    none none none (some (.iso 100 (some tzOffsetSecs))) none none none
    ⟨100, tzOffsetSecs⟩ (by decide) (by decide) rfl

/-- C10: `stop_requested` and `seen_recent_article` start false and are
monotone (never reset to false) under the article re-check, the
per-candidate listing pass and the whole scroll loop, and `seen_urls` only
grows under each of them. -/
theorem run_flags_monotone :
    (initState.stop_requested = false ∧ initState.seen_recent_article = false ∧
      initState.seen_urls = []) ∧
    (∀ (cfg : SpiderCfg) (s : ScanState) (url : String)
       (title author provider : Option String) (ta pm pd ad : Option DateStr),
      state_mono s (parse_article cfg s url title author provider ta pm pd ad).1) ∧
    (∀ (cfg : SpiderCfg) (s : ScanState) (cs : List Cand),
      state_mono s (parse_archive_cands cfg s cs).1) ∧
    (∀ (cfg : SpiderCfg) (pages : List (List Cand)) (round : Nat) (s : ScanState),
      state_mono s (parse_archive_loop cfg pages round s).1) :=
  ⟨⟨rfl, rfl, rfl⟩,
   fun cfg s url title author provider ta pm pd ad =>
     article_mono cfg s url title author provider ta pm pd ad,
   fun cfg s cs => cands_mono cfg cs s,
   fun cfg pages round s => loop_mono cfg pages round s⟩

/-- C10 witness: a state with the stop flag already raised keeps it raised
through a concrete article re-check. -/
theorem run_flags_monotone_witness :
    (parse_article (spider_init 3600 none none 20)
        { initState with stop_requested := true } "u" none none none
        none none none none).1.stop_requested = true :=
  (run_flags_monotone.2.1 (spider_init 3600 none none 20)
      { initState with stop_requested := true } "u" none none none
      none none none none).1 rfl

/-- C9: with `max_urls = 5` and an initially empty seen set, a scroll round
surfacing eight qualifying candidates dispatches exactly the first five
(in document order), leaves exactly five URLs in `seen_urls`, and the
scroll loop terminates after that round no matter what further rounds
would have rendered. -/
theorem max_urls_five_of_eight :
    (parse_archive_cands (spider_init 3600 none (some 5) 20) initState eight_cands).2 =
      ["https://tw.news.yahoo.com/a1.html", "https://tw.news.yahoo.com/a2.html",
       "https://tw.news.yahoo.com/a3.html", "https://tw.news.yahoo.com/a4.html",
       "https://tw.news.yahoo.com/a5.html"] ∧
    (parse_archive_cands (spider_init 3600 none (some 5) 20) initState
        eight_cands).1.seen_urls.length = 5 ∧
    ∀ rest : List (List Cand),
      parse_archive_loop (spider_init 3600 none (some 5) 20) (eight_cands :: rest) 0 initState =
        parse_archive_cands (spider_init 3600 none (some 5) 20) initState eight_cands :=
  ⟨by decide, by decide, fun rest => rfl⟩

/-- C5 counterexample: the code's date chain takes the first PRESENT page
source, not the first source that parses.  With a present-but-malformed
page-visible timestamp, a parseable `article:published_time` meta value
inside the window, and no other source, the spec's rule resolves the
in-window meta date while the code resolves nothing and drops the
article. -/
theorem date_chain_first_present_not_first_parsing :
    resolve_pub_dt
        (firstTruthy (some (.malformed "x")) (some (.iso 100 (some tzOffsetSecs))) none)
        none = none ∧
    resolve_date_spec (some (.malformed "x")) (some (.iso 100 (some tzOffsetSecs))) none none =
      some ⟨100, tzOffsetSecs⟩ ∧
    classify_code (spider_init 3600 none none 20) ⟨100, tzOffsetSecs⟩ = .inWindow ∧
    (parse_article (spider_init 3600 none none 20) initState "u" none none none
        (some (.malformed "x")) (some (.iso 100 (some tzOffsetSecs))) none none).2 = none := by
  refine ⟨by decide, by decide, by decide, by decide⟩

/-- C5 (amended): `parse_article` drops the article exactly when the date
resolution yields nothing, and the resolution rule is: parse the first
non-empty page source among (visible timestamp attribute,
`article:published_time`, `pubdate`); if there is none, or it fails to
parse, fall back to parsing the inline hint; an emitted record always
carries the resolved date. -/
theorem date_resolution_amended :
    (∀ (ta pm pd ad : Option DateStr) (x : DateStr) (d : AwareDT),
      firstTruthy ta pm pd = some x → parse_datetime (some x) = some d →
      resolve_pub_dt (firstTruthy ta pm pd) ad = some d) ∧
    (∀ (ta pm pd ad : Option DateStr) (x : DateStr),
      firstTruthy ta pm pd = some x → parse_datetime (some x) = none →
      resolve_pub_dt (firstTruthy ta pm pd) ad = parse_datetime ad) ∧
    (∀ (ta pm pd ad : Option DateStr),
      firstTruthy ta pm pd = none →
      resolve_pub_dt (firstTruthy ta pm pd) ad = parse_datetime ad) ∧
    (∀ (cfg : SpiderCfg) (s : ScanState) (url : String)
       (title author provider : Option String) (ta pm pd ad : Option DateStr),
      resolve_pub_dt (firstTruthy ta pm pd) ad = none →
      parse_article cfg s url title author provider ta pm pd ad = (s, none)) ∧
    (∀ (cfg : SpiderCfg) (s : ScanState) (url : String)
       (title author provider : Option String) (ta pm pd ad : Option DateStr)
       (s' : ScanState) (r : ArticleRecord),
      parse_article cfg s url title author provider ta pm pd ad = (s', some r) →
      resolve_pub_dt (firstTruthy ta pm pd) ad = some r.date) := by
  refine ⟨?_, ?_, ?_, ?_, ?_⟩
  · intro ta pm pd ad x d hx hd
    rw [hx]
    simp [resolve_pub_dt, hd]
  · intro ta pm pd ad x hx hd
    rw [hx]
    simp [resolve_pub_dt, hd]
  · intro ta pm pd ad hx
    rw [hx]
    simp [resolve_pub_dt, parse_datetime]
  · intro cfg s url title author provider ta pm pd ad hres
    simp [parse_article, hres]
  · intro cfg s url title author provider ta pm pd ad s' r h
    simp only [parse_article] at h
    cases hres : resolve_pub_dt (firstTruthy ta pm pd) ad with
    | none => simp only [hres] at h; simp at h
    | some d =>
      simp only [hres] at h
      split at h
      · simp at h
      · split at h
        · split at h
          · split at h <;> simp at h
          · simp at h
        · split at h
          · simp only [Prod.mk.injEq, Option.some.injEq] at h
            rcases h with ⟨-, hr⟩
            subst hr
            rfl
          · simp at h

/-- C5 witness: the amended rule on a concrete input whose first non-empty
source parses. -/
theorem date_resolution_amended_witness :
    resolve_pub_dt (firstTruthy (some (.iso 200 (some tzOffsetSecs))) none none) none =
      some ⟨200, tzOffsetSecs⟩ :=
  date_resolution_amended.1 (some (.iso 200 (some tzOffsetSecs))) none none none
    (.iso 200 (some tzOffsetSecs)) ⟨200, tzOffsetSecs⟩ rfl (by decide)

theorem jsonArr_ind (motive : JsonArr → Prop) (h0 : motive .nil)
    (h1 : ∀ x tl, motive tl → motive (.cons x tl)) : ∀ xs, motive xs :=
  fun xs => @JsonArr.rec (fun _ => True) motive (fun _ => True)
    (fun _ => trivial) (fun _ => trivial) (fun _ => trivial) trivial
    (fun _ _ => trivial) (fun _ _ => trivial)
    h0 (fun x tl _ ih => h1 x tl ih)
    trivial (fun _ _ _ _ _ => trivial) xs

theorem person_names_eq : ∀ xs : JsonArr,
    person_names xs = xs.toList.filterMap extract_person_name := by
  intro xs
  induction xs using jsonArr_ind with
  | h0 => simp [person_names, JsonArr.toList]
  | h1 x tl ih =>
    cases h : extract_person_name x <;>
      simp [person_names, JsonArr.toList, h, ih]

theorem first_org_name_eq : ∀ xs : JsonArr,
    first_org_name xs = xs.toList.findSome? extract_org_name := by
  intro xs
  induction xs using jsonArr_ind with
  | h0 => simp [first_org_name, JsonArr.toList]
  | h1 x tl ih =>
    cases h : extract_org_name x <;>
      simp [first_org_name, JsonArr.toList, h, ih]

/-- C6 counterexample: a plain string value is NOT used as-is: both
extractors strip surrounding whitespace, and a whitespace-only string
yields nothing instead of itself. -/
theorem person_name_string_not_as_is :
    extract_person_name (.str " A ") ≠ some " A " ∧
    extract_person_name (.str " A ") = some "A" ∧
    extract_org_name (.str " ") = none := by
  have h1 : extract_person_name (.str " A ") = some "A" := by
    simp [extract_person_name, pyStrip, isSpaceChar]
  refine ⟨by rw [h1]; decide, h1, ?_⟩
  simp [extract_org_name, pyStrip, isSpaceChar]

/-- C6 (amended): the name-resolution rule with trimming.  A plain string
is trimmed and used only when non-blank; a mapping yields its trimmed
`name` field only when that field is a string that is non-blank after
trimming; a sequence yields the `", "`-join of the resolved member names in
the author case (nothing when no member resolves) and the first resolved
member name in the provider case; any other value yields nothing. -/
theorem name_resolution_rule_amended :
    (∀ s, extract_person_name (.str s) = trimmed_nonblank s) ∧
    (∀ s, extract_org_name (.str s) = trimmed_nonblank s) ∧
    (∀ fs, extract_person_name (.obj fs) =
      (match fs.get "name" with
       | some (.str n) => trimmed_nonblank n
       | _ => none)) ∧
    (∀ fs, extract_org_name (.obj fs) =
      (match fs.get "name" with
       | some (.str n) => trimmed_nonblank n
       | _ => none)) ∧
    (∀ xs, extract_person_name (.arr xs) =
      (match xs.toList.filterMap extract_person_name with
       | [] => none
       | n :: ns => some (String.intercalate ", " (n :: ns)))) ∧
    (∀ xs, extract_org_name (.arr xs) = xs.toList.findSome? extract_org_name) ∧
    (∀ n : Int, extract_person_name (.num n) = none ∧ extract_org_name (.num n) = none) ∧
    (∀ b, extract_person_name (.boolVal b) = none ∧ extract_org_name (.boolVal b) = none) ∧
    (extract_person_name .nullVal = none ∧ extract_org_name .nullVal = none) := by
  refine ⟨?_, ?_, ?_, ?_, ?_, ?_, ?_, ?_, ?_⟩
  · intro s
    simp [extract_person_name, trimmed_nonblank]
  · intro s
    simp [extract_org_name, trimmed_nonblank]
  · intro fs
    simp only [extract_person_name, trimmed_nonblank]
  · intro fs
    simp only [extract_org_name, trimmed_nonblank]
  · intro xs
    rw [extract_person_name, person_names_eq]
  · intro xs
    rw [extract_org_name, first_org_name_eq]
  · intro n
    exact ⟨by simp [extract_person_name], by simp [extract_org_name]⟩
  · intro b
    exact ⟨by simp [extract_person_name], by simp [extract_org_name]⟩
  · exact ⟨by simp [extract_person_name], by simp [extract_org_name]⟩

theorem pair_key_le_iff (a b : Nat × CsvRow) :
    pair_key_le a b = true ↔
      (row_sort_key a.2 < row_sort_key b.2 ∨
       (row_sort_key a.2 = row_sort_key b.2 ∧ a.1 ≤ b.1)) := by
  unfold pair_key_le
  split
  · rename_i h
    simp [h]
  · rename_i h
    split
    · rename_i h2
      simp [h, h2]
    · rename_i h2
      simp only [Bool.false_eq_true, false_iff]
      omega

theorem pair_key_le_trans (a b c : Nat × CsvRow)
    (h1 : pair_key_le a b) (h2 : pair_key_le b c) : pair_key_le a c := by
  rw [pair_key_le_iff] at h1 h2 ⊢
  omega

theorem pair_key_le_total (a b : Nat × CsvRow) : pair_key_le a b || pair_key_le b a := by
  simp only [Bool.or_eq_true, pair_key_le_iff]
  omega

theorem enumFrom_pairwise (l : List CsvRow) :
    ∀ n : Nat, l.Pairwise (fun a b => row_sort_key a ≤ row_sort_key b) →
    (l.enumFrom n).Pairwise (fun a b => pair_key_le a b = true) := by
  induction l with
  | nil => intro n _; simp
  | cons x tl ih =>
    intro n h
    rcases List.pairwise_cons.mp h with ⟨hx, htl⟩
    refine List.pairwise_cons.mpr ⟨?_, ih (n + 1) htl⟩
    intro y hy
    have h1 : n + 1 ≤ y.1 := List.le_fst_of_mem_enumFrom hy
    have h2 : row_sort_key x ≤ row_sort_key y.2 := hx y.2 (List.snd_mem_of_mem_enumFrom hy)
    rw [pair_key_le_iff]
    dsimp only
    omega

theorem sort_output_of_sorted (rows : List CsvRow)
    (h : rows.Pairwise (fun a b => row_sort_key a ≤ row_sort_key b)) :
    sort_output_csv_by_date rows = rows := by
  have h2 : (rows.enum).Pairwise (fun a b => pair_key_le a b = true) :=
    enumFrom_pairwise rows 0 h
  unfold sort_output_csv_by_date
  rw [List.mergeSort_of_sorted h2]
  exact List.enum_map_snd rows

theorem sort_output_pairwise (rows : List CsvRow) :
    (sort_output_csv_by_date rows).Pairwise
      (fun a b => row_sort_key a ≤ row_sort_key b) := by
  unfold sort_output_csv_by_date
  refine List.Pairwise.map _ ?_
    (List.sorted_mergeSort pair_key_le_trans pair_key_le_total rows.enum)
  intro a b hab
  rw [pair_key_le_iff] at hab
  omega

/-- C8: OutputSorter is idempotent.  A row sequence already weakly sorted by
the parsed date key is returned unchanged (the original row order is the
tie-break, so such a sequence is exactly a sorted one), and sorting twice
equals sorting once, for every row sequence. -/
theorem sort_output_idempotent :
    (∀ rows : List CsvRow,
      rows.Pairwise (fun a b => row_sort_key a ≤ row_sort_key b) →
      sort_output_csv_by_date rows = rows) ∧
    (∀ rows : List CsvRow,
      sort_output_csv_by_date (sort_output_csv_by_date rows) =
        sort_output_csv_by_date rows) :=
  ⟨sort_output_of_sorted, fun rows => sort_output_of_sorted _ (sort_output_pairwise rows)⟩

/-- C8 witness: a concrete date-sorted two-row file is returned unchanged. -/
theorem sort_output_idempotent_witness :
    sort_output_csv_by_date
      [{ link := "a", title := "", author := "", provider := "",
         date := some (.iso 100 (some tzOffsetSecs)) },
       { link := "b", title := "", author := "", provider := "",
         date := some (.iso 200 (some tzOffsetSecs)) }] =
      [{ link := "a", title := "", author := "", provider := "",
         date := some (.iso 100 (some tzOffsetSecs)) },
       { link := "b", title := "", author := "", provider := "",
         date := some (.iso 200 (some tzOffsetSecs)) }] :=
  sort_output_idempotent.1
    [{ link := "a", title := "", author := "", provider := "",
       date := some (.iso 100 (some tzOffsetSecs)) },
     { link := "b", title := "", author := "", provider := "",
       date := some (.iso 200 (some tzOffsetSecs)) }] (by decide)

/-- C7: DateTimeNormalizer round-trips.  For every ISO string carrying the
reference-timezone offset, serializing the result of `parse_datetime` yields
the identical string; and for every instant `i` (and any offset `o`),
parsing the UTC-suffixed form of `i` and parsing its equivalent
explicit-offset form at offset `o` yield the same aware datetime. -/
theorem parse_datetime_round_trip :
    (∀ w : Int,
      (parse_datetime (some (.iso w (some tzOffsetSecs)))).map AwareDT.isoformat =
        some (.iso w (some tzOffsetSecs))) ∧
    (∀ i o : Int,
      parse_datetime (some (.isoZ i)) = parse_datetime (some (.iso (i + o) (some o)))) := by
  constructor
  · intro w
    simp [parse_datetime, AwareDT.astimezoneTZ, AwareDT.instant, AwareDT.isoformat]
  · intro i o
    simp only [parse_datetime, AwareDT.astimezoneTZ, AwareDT.instant, Option.some.injEq,
      AwareDT.mk.injEq]
    constructor
    · omega
    · trivial

/-- C1 counterexample: with the window `[start, end]` built by `__init__`
(end wall-clock 3600, start 3600 s earlier), an article page whose resolved
date equals `window.end` is NOT classified too-new by `parse_article`
(the code tests `pub_dt > self.end_dt`, not `>=`): the record IS emitted,
and its date equals the window end. -/
theorem date_at_window_end_emitted :
    (parse_article (spider_init 3600 none none 20) initState "u" none none none
        (some (.iso 3600 (some tzOffsetSecs))) none none none).2 =
      some { link := "u", title := none, author := none, provider := none,
             date := ⟨3600, tzOffsetSecs⟩ } ∧
    (⟨3600, tzOffsetSecs⟩ : AwareDT) = (spider_init 3600 none none 20).end_dt ∧
    (spider_init 3600 none none 20).start_dt.instant <
      (spider_init 3600 none none 20).end_dt.instant := by
  refine ⟨by decide, by decide, by decide⟩

/-- C1 (amended): for every emitted ArticleRecord the resolved publication
date `d` satisfies `window.start <= d <= window.end` (the window is closed
at both ends in the code: an article whose resolved date equals
`window.end` is in-window and is emitted). -/
theorem emitted_date_within_closed_window
    (cfg : SpiderCfg) (s : ScanState) (url : String)
    (title author provider : Option String)
    (ta pm pd ad : Option DateStr) (s' : ScanState) (r : ArticleRecord)
    (h : parse_article cfg s url title author provider ta pm pd ad = (s', some r)) :
    cfg.start_dt.instant ≤ r.date.instant ∧ r.date.instant ≤ cfg.end_dt.instant := by
  simp only [parse_article] at h
  cases hres : resolve_pub_dt (firstTruthy ta pm pd) ad with
  | none => simp only [hres] at h; simp at h
  | some d =>
    simp only [hres] at h
    split at h
    · simp at h
    · split at h
      · split at h
        · split at h <;> simp at h
        · simp at h
      · split at h
        · rename_i hin
          simp only [Prod.mk.injEq, Option.some.injEq] at h
          rcases h with ⟨-, hr⟩
          subst hr
          exact hin
        · simp at h

/-- C1 witness: the amended bound instantiated on a concrete emission. -/
theorem emitted_date_within_closed_window_witness :
    (spider_init 3600 none none 20).start_dt.instant ≤
        (AwareDT.mk 1800 tzOffsetSecs).instant ∧
      (AwareDT.mk 1800 tzOffsetSecs).instant ≤ (spider_init 3600 none none 20).end_dt.instant :=
  emitted_date_within_closed_window (spider_init 3600 none none 20) initState "u"
    none none none (some (.iso 1800 (some tzOffsetSecs))) none none none
    { initState with seen_recent_article := true, item_count := 1 }
    { link := "u", title := none, author := none, provider := none,
      date := ⟨1800, tzOffsetSecs⟩ }
    (by decide)

end YahooArchive
